import Mathlib

/-!
Verification of the client-side enhancement script of the design-website
repository (src/js/main.js). Each function of the script is shallowly
embedded as a pure Lean function over an explicit model of the DOM state
it touches; JavaScript strings are modelled as `List Char`, attribute
absence as `Option`, class lists as `List String`.
-/

namespace DesignSite

/-! ### JavaScript string primitives

`startsW needle hay` models "hay starts with needle";
`hasSub needle hay` models `hay.indexOf(needle) !== -1`
(contiguous substring containment). -/

def startsW : List Char → List Char → Bool
  | [], _ => true
  | _ :: _, [] => false
  | a :: as, b :: bs => a == b && startsW as bs

def hasSub (needle : List Char) : List Char → Bool
  | [] => needle.isEmpty
  | b :: bs => startsW needle (b :: bs) || hasSub needle bs

/-- Split a character list at every space, keeping empty chunks
(the chunk structure of a `rel` attribute value). -/
def splitSp : List Char → List (List Char)
  | [] => [[]]
  | c :: cs =>
    if c = ' ' then [] :: splitSp cs
    else
      match splitSp cs with
      | [] => [[c]]
      | h :: t => (c :: h) :: t

/-- The whitespace-separated tokens of an attribute value: the nonempty
chunks of `splitSp`. -/
def toks (s : List Char) : List (List Char) :=
  (splitSp s).filter (fun c => ¬ c.isEmpty)

theorem splitSp_ne_nil (s : List Char) : splitSp s ≠ [] := by
  cases s with
  | nil => simp [splitSp]
  | cons c cs =>
    simp only [splitSp]
    split
    · simp
    · cases h : splitSp cs <;> simp

theorem splitSp_append (a b : List Char) :
    splitSp (a ++ ' ' :: b) = splitSp a ++ splitSp b := by
  induction a with
  | nil => simp [splitSp]
  | cons c cs ih =>
    simp only [List.cons_append, splitSp]
    by_cases hc : c = ' '
    · simp [hc, ih]
    · simp only [hc, if_false]
      cases h : splitSp cs with
      | nil => exact absurd h (splitSp_ne_nil cs)
      | cons x xs => simp only [List.append_eq]; rw [ih, h]; simp

theorem toks_append_sp (a b : List Char) :
    toks (a ++ ' ' :: b) = toks a ++ toks b := by
  unfold toks
  rw [splitSp_append, List.filter_append]

/-! ### External link hardening (`secureExternalLinks`, main.js 175-185)

```js
const externalLinks = document.querySelectorAll('a[target="_blank"]');
externalLinks.forEach(link => {
  if (!link.hasAttribute('rel') || link.getAttribute('rel').indexOf('noopener') === -1) {
    const currentRel = link.getAttribute('rel') || '';
    link.setAttribute('rel', currentRel + ' noopener noreferrer');
  }
});
```
-/

structure Link where
  target : List Char
  rel : Option (List Char)
deriving DecidableEq

/-- The new `rel` attribute value computed by the body of the `forEach`
in `secureExternalLinks`. `none` models an absent attribute; the
`getD []` in the guarded branch models `getAttribute('rel') || ''`. -/
def secureRel : Option (List Char) → Option (List Char)
  | none => some ([] ++ (" noopener noreferrer").data)
  | some r =>
    if hasSub ("noopener").data r then some r
    else some (r ++ (" noopener noreferrer").data)

def secureLink (l : Link) : Link :=
  if l.target = ("_blank").data then { l with rel := secureRel l.rel } else l

def secureExternalLinks (links : List Link) : List Link :=
  links.map secureLink

theorem secureRel_eq_of_hasSub (r : List Char)
    (h : hasSub ("noopener").data r = true) : secureRel (some r) = some r := by
  simp [secureRel, h]

theorem sep_data_eq :
    (" noopener noreferrer").data = ' ' :: ("noopener noreferrer").data := by
  decide

theorem toks_sep :
    toks (("noopener noreferrer").data) =
      [("noopener").data, ("noreferrer").data] := by
  decide

theorem toks_append_sep (r : List Char) :
    toks (r ++ (" noopener noreferrer").data) =
      toks r ++ [("noopener").data, ("noreferrer").data] := by
  rw [sep_data_eq, toks_append_sp, toks_sep]

theorem secureExternalLinks_length (links : List Link) :
    (secureExternalLinks links).length = links.length := by
  simp [secureExternalLinks]

theorem secureRel_append (r : Option (List Char))
    (h : r = none ∨ hasSub (("noopener").data) (r.getD []) = false) :
    secureRel r = some ((r.getD []) ++ (" noopener noreferrer").data) := by
  cases r with
  | none => simp [secureRel]
  | some v =>
    rcases h with h | h
    · exact absurd h (by simp)
    · simp only [Option.getD] at h ⊢
      simp [secureRel, h]

theorem secureExternalLinks_get (links : List Link) (i : Nat)
    (hi : i < links.length) (hi' : i < (secureExternalLinks links).length) :
    (secureExternalLinks links).get ⟨i, hi'⟩ = secureLink (links.get ⟨i, hi⟩) := by
  simp [secureExternalLinks]

theorem secureLink_rel (l : Link) (ht : l.target = ("_blank").data)
    (h : l.rel = none ∨ hasSub (("noopener").data) (l.rel.getD []) = false) :
    (secureLink l).rel = some ((l.rel.getD []) ++ (" noopener noreferrer").data) := by
  simp [secureLink, ht, secureRel_append _ h]

/-- C1 counterexample: the rel value "nonoopener" is a single token, so it
lacks the isolation token "noopener"; the claim then requires the isolation
tokens to be appended, but `secureExternalLinks` leaves the link unchanged
(the code tests substring containment, and "nonoopener" contains "noopener"
as a substring), so the processed rel still lacks both isolation tokens. -/
theorem secure_token_lack_counterexample :
    ("noopener").data ∉ toks (("nonoopener").data) ∧
    secureExternalLinks [⟨("_blank").data, some (("nonoopener").data)⟩] =
      [⟨("_blank").data, some (("nonoopener").data)⟩] ∧
    ("noreferrer").data ∉ toks (("nonoopener").data) := by
  decide

/-- C1 (amended): for every link with target "_blank" whose rel attribute is
absent or whose rel value lacks "noopener" as a substring (rather than as a
whitespace-token), `secureExternalLinks` rewrites the rel to the old value
followed by " noopener noreferrer": every pre-existing whitespace token is
preserved and the tokens "noopener" and "noreferrer" are both present
afterwards. -/
theorem secureExternalLinks_appends_isolation (links : List Link) (i : Nat)
    (hi : i < links.length)
    (ht : (links.get ⟨i, hi⟩).target = ("_blank").data)
    (h : (links.get ⟨i, hi⟩).rel = none ∨
      hasSub (("noopener").data) ((links.get ⟨i, hi⟩).rel.getD []) = false) :
    ∀ hi' : i < (secureExternalLinks links).length,
      ((secureExternalLinks links).get ⟨i, hi'⟩).rel =
          some (((links.get ⟨i, hi⟩).rel.getD []) ++ (" noopener noreferrer").data) ∧
      (∀ t ∈ toks ((links.get ⟨i, hi⟩).rel.getD []),
          t ∈ toks (((links.get ⟨i, hi⟩).rel.getD []) ++ (" noopener noreferrer").data)) ∧
      ("noopener").data ∈
        toks (((links.get ⟨i, hi⟩).rel.getD []) ++ (" noopener noreferrer").data) ∧
      ("noreferrer").data ∈
        toks (((links.get ⟨i, hi⟩).rel.getD []) ++ (" noopener noreferrer").data) := by
  intro hi'
  rw [secureExternalLinks_get links i hi hi']
  refine ⟨?_, ?_, ?_, ?_⟩
  · exact secureLink_rel _ ht h
  · intro t htk
    rw [toks_append_sep]
    exact List.mem_append_left _ htk
  · rw [toks_append_sep]; simp
  · rw [toks_append_sep]; simp

/-- Witness for C1 (amended) at a link with target "_blank" and
rel "nofollow". -/
theorem secureExternalLinks_appends_isolation_witness :
    ((secureExternalLinks [⟨("_blank").data, some (("nofollow").data)⟩]).get
        ⟨0, by decide⟩).rel =
      some ((("nofollow").data) ++ (" noopener noreferrer").data) ∧
    ("nofollow").data ∈ toks ((("nofollow").data) ++ (" noopener noreferrer").data) ∧
    ("noopener").data ∈ toks ((("nofollow").data) ++ (" noopener noreferrer").data) ∧
    ("noreferrer").data ∈ toks ((("nofollow").data) ++ (" noopener noreferrer").data) := by
  obtain ⟨h1, h2, h3, h4⟩ :=
    secureExternalLinks_appends_isolation
      [⟨("_blank").data, some (("nofollow").data)⟩] 0 (by decide) rfl
      (Or.inr (by decide)) (by decide)
  exact ⟨h1, h2 (("nofollow").data) (by decide), h3, h4⟩

/-- C10: `secureExternalLinks` leaves the rel attribute entirely unchanged
whenever the existing value contains "noopener" as a substring: a rel of
exactly "noopener" never gains "noreferrer", a value embedding "noopener"
inside the longer token "nonoopener" also suppresses the hardening, and an
absent rel is rewritten to " noopener noreferrer" with a leading space. -/
theorem secureExternalLinks_substring_guard (r : List Char)
    (h : hasSub (("noopener").data) r = true) :
    secureExternalLinks [⟨("_blank").data, some r⟩] = [⟨("_blank").data, some r⟩] ∧
    (secureRel (some (("noopener").data)) = some (("noopener").data) ∧
      hasSub (("noreferrer").data) (("noopener").data) = false) ∧
    (secureRel (some (("nonoopener").data)) = some (("nonoopener").data) ∧
      ("noopener").data ∉ toks (("nonoopener").data)) ∧
    secureRel none = some (' ' :: ("noopener noreferrer").data) := by
  refine ⟨?_, by decide, by decide, by decide⟩
  simp [secureExternalLinks, secureLink, secureRel, h]

/-- Witness for C10 at the rel value "noopener". -/
theorem secureExternalLinks_substring_guard_witness :
    secureExternalLinks [⟨("_blank").data, some (("noopener").data)⟩] =
      [⟨("_blank").data, some (("noopener").data)⟩] :=
  (secureExternalLinks_substring_guard (("noopener").data) (by decide)).1

/-! ### DOM class lists

`classList.add` adds a token only if absent; `classList.remove` drops it. -/

def addClass (cs : List String) (c : String) : List String :=
  if c ∈ cs then cs else cs ++ [c]

def removeClass (cs : List String) (c : String) : List String :=
  cs.filter (fun x => x ≠ c)

theorem mem_addClass (cs : List String) (c d : String) :
    d ∈ addClass cs c ↔ d ∈ cs ∨ d = c := by
  unfold addClass
  split
  · rename_i h
    constructor
    · exact Or.inl
    · rintro (h' | rfl)
      · exact h'
      · exact h
  · simp

theorem mem_addClass_self (cs : List String) (c : String) :
    c ∈ addClass cs c := by
  rw [mem_addClass]; exact Or.inr rfl

theorem mem_removeClass (cs : List String) (c d : String) :
    d ∈ removeClass cs c ↔ d ∈ cs ∧ d ≠ c := by
  simp [removeClass]

/-! ### Image loading (`optimizeImageLoading`, main.js 88-106)

```js
const images = document.querySelectorAll('.project-image');
images.forEach(img => {
  if (img.complete) {
    img.classList.add('loaded');
  } else {
    img.addEventListener('load', function() { this.classList.add('loaded'); });
    img.addEventListener('error', function() {
      console.warn('Image failed to load:', this.src);
      this.classList.add('error');
    });
  }
});
```

Neither `addEventListener` call passes `once: true` and neither handler
body removes itself, so the model keeps the registration flags set by
the handlers themselves and counts handler-body executions. -/

structure Img where
  complete : Bool
  classes : List String
deriving DecidableEq

inductive ImgEvent
  | load
  | error
deriving DecidableEq

structure ImgState where
  classes : List String
  loadRegistered : Bool
  errorRegistered : Bool
  loadRuns : Nat
  errorRuns : Nat
deriving DecidableEq

def attachImg (img : Img) : ImgState :=
  if img.complete then
    ⟨addClass img.classes ("loaded"), false, false, 0, 0⟩
  else
    ⟨img.classes, true, true, 0, 0⟩

def imgStep (s : ImgState) : ImgEvent → ImgState
  | ImgEvent.load =>
    if s.loadRegistered then
      { s with classes := addClass s.classes ("loaded"), loadRuns := s.loadRuns + 1 }
    else s
  | ImgEvent.error =>
    if s.errorRegistered then
      { s with classes := addClass s.classes ("error"), errorRuns := s.errorRuns + 1 }
    else s

def imgRun (s : ImgState) (evs : List ImgEvent) : ImgState :=
  evs.foldl imgStep s

def countEv (e : ImgEvent) : List ImgEvent → Nat
  | [] => 0
  | x :: xs => (if x = e then 1 else 0) + countEv e xs

theorem imgRun_registered_runs (s : ImgState) (evs : List ImgEvent)
    (hl : s.loadRegistered = true) (he : s.errorRegistered = true) :
    (imgRun s evs).loadRegistered = true ∧
    (imgRun s evs).errorRegistered = true ∧
    (imgRun s evs).loadRuns = s.loadRuns + countEv ImgEvent.load evs ∧
    (imgRun s evs).errorRuns = s.errorRuns + countEv ImgEvent.error evs := by
  induction evs generalizing s with
  | nil => simp [imgRun, countEv, hl, he]
  | cons e rest ih =>
    have hrun : imgRun s (e :: rest) = imgRun (imgStep s e) rest := rfl
    cases e with
    | load =>
      have hs : imgStep s ImgEvent.load =
          { s with classes := addClass s.classes ("loaded"),
                   loadRuns := s.loadRuns + 1 } := by
        simp [imgStep, hl]
      obtain ⟨a, b, c, d⟩ := ih
        { s with classes := addClass s.classes ("loaded"),
                 loadRuns := s.loadRuns + 1 } hl he
      rw [hrun, hs]
      refine ⟨a, b, ?_, ?_⟩
      · rw [c]; simp [countEv]; omega
      · rw [d]; simp [countEv]
    | error =>
      have hs : imgStep s ImgEvent.error =
          { s with classes := addClass s.classes ("error"),
                   errorRuns := s.errorRuns + 1 } := by
        simp [imgStep, he]
      obtain ⟨a, b, c, d⟩ := ih
        { s with classes := addClass s.classes ("error"),
                 errorRuns := s.errorRuns + 1 } hl he
      rw [hrun, hs]
      refine ⟨a, b, ?_, ?_⟩
      · rw [c]; simp [countEv]
      · rw [d]; simp [countEv]; omega

theorem imgRun_mem_classes (s : ImgState) (evs : List ImgEvent)
    (hl : s.loadRegistered = true) (he : s.errorRegistered = true) :
    (("loaded") ∈ (imgRun s evs).classes ↔
      ("loaded") ∈ s.classes ∨ ImgEvent.load ∈ evs) ∧
    (("error") ∈ (imgRun s evs).classes ↔
      ("error") ∈ s.classes ∨ ImgEvent.error ∈ evs) := by
  have hne : ("error" : String) ≠ ("loaded") := by decide
  have hne' : ("loaded" : String) ≠ ("error") := by decide
  induction evs generalizing s with
  | nil => simp [imgRun]
  | cons e rest ih =>
    have hrun : imgRun s (e :: rest) = imgRun (imgStep s e) rest := rfl
    cases e with
    | load =>
      have hs : imgStep s ImgEvent.load =
          { s with classes := addClass s.classes ("loaded"),
                   loadRuns := s.loadRuns + 1 } := by
        simp [imgStep, hl]
      obtain ⟨a, b⟩ := ih
        { s with classes := addClass s.classes ("loaded"),
                 loadRuns := s.loadRuns + 1 } hl he
      rw [hrun, hs]
      constructor
      · rw [a]
        simp [mem_addClass_self]
      · rw [b, mem_addClass]
        simp [hne]
    | error =>
      have hs : imgStep s ImgEvent.error =
          { s with classes := addClass s.classes ("error"),
                   errorRuns := s.errorRuns + 1 } := by
        simp [imgStep, he]
      obtain ⟨a, b⟩ := ih
        { s with classes := addClass s.classes ("error"),
                 errorRuns := s.errorRuns + 1 } hl he
      rw [hrun, hs]
      constructor
      · rw [a, mem_addClass]
        simp [hne']
      · rw [b]
        simp [mem_addClass_self]

/-- C2 counterexample: with a not-yet-complete image, the load handler is
still registered after its first invocation, and delivering two load
(or two error) events executes the corresponding handler body twice —
the handlers installed by `optimizeImageLoading` do not self-deregister. -/
theorem imgHandlers_counterexample :
    (imgRun (attachImg ⟨false, []⟩) [ImgEvent.load]).loadRegistered = true ∧
    (imgRun (attachImg ⟨false, []⟩) [ImgEvent.load, ImgEvent.load]).loadRuns = 2 ∧
    (imgRun (attachImg ⟨false, []⟩) [ImgEvent.error, ImgEvent.error]).errorRuns = 2 := by
  decide

/-- C2 (amended): the load and error handlers installed by
`optimizeImageLoading` on a not-yet-complete image are not one-shot: they
remain registered through any sequence of events, and each handler body
executes once per delivered event of its kind (so repeated events re-execute
it), though re-execution only re-adds an already present class. -/
theorem imgHandlers_not_one_shot (img : Img) (evs : List ImgEvent)
    (h : img.complete = false) :
    (imgRun (attachImg img) evs).loadRegistered = true ∧
    (imgRun (attachImg img) evs).errorRegistered = true ∧
    (imgRun (attachImg img) evs).loadRuns = countEv ImgEvent.load evs ∧
    (imgRun (attachImg img) evs).errorRuns = countEv ImgEvent.error evs := by
  have ha : attachImg img = ⟨img.classes, true, true, 0, 0⟩ := by
    simp [attachImg, h]
  rw [ha]
  simpa using imgRun_registered_runs ⟨img.classes, true, true, 0, 0⟩ evs rfl rfl

/-- Witness for C2 (amended): two load events on a fresh incomplete image. -/
theorem imgHandlers_not_one_shot_witness :
    (imgRun (attachImg ⟨false, []⟩) [ImgEvent.load, ImgEvent.load]).loadRegistered = true ∧
    (imgRun (attachImg ⟨false, []⟩) [ImgEvent.load, ImgEvent.load]).errorRegistered = true ∧
    (imgRun (attachImg ⟨false, []⟩) [ImgEvent.load, ImgEvent.load]).loadRuns =
      countEv ImgEvent.load [ImgEvent.load, ImgEvent.load] ∧
    (imgRun (attachImg ⟨false, []⟩) [ImgEvent.load, ImgEvent.load]).errorRuns =
      countEv ImgEvent.error [ImgEvent.load, ImgEvent.load] :=
  imgHandlers_not_one_shot ⟨false, []⟩ [ImgEvent.load, ImgEvent.load] rfl

/-- C3 counterexample: an incomplete image that receives an error event and
then a load event ends up carrying both the "error" and the "loaded" class,
so the two classes are not mutually exclusive terminal states. -/
theorem imgClasses_counterexample :
    ("loaded") ∈ (imgRun (attachImg ⟨false, []⟩) [ImgEvent.error, ImgEvent.load]).classes ∧
    ("error") ∈ (imgRun (attachImg ⟨false, []⟩) [ImgEvent.error, ImgEvent.load]).classes := by
  decide

/-- C3 (amended): for a fresh incomplete project image, "loaded" is present
after an event sequence exactly when a load event occurred and "error"
exactly when an error event occurred (so a sequence containing both leaves
both classes, and neither class is ever removed once set: every step only
adds classes, as the final conjunct states for an arbitrary state). -/
theorem imgClasses_terminal (img : Img) (evs : List ImgEvent)
    (h : img.complete = false) (hc : img.classes = [])
    (s : ImgState) (e : ImgEvent) (c : String) (hcs : c ∈ s.classes) :
    ((("loaded") ∈ (imgRun (attachImg img) evs).classes ↔ ImgEvent.load ∈ evs) ∧
     (("error") ∈ (imgRun (attachImg img) evs).classes ↔ ImgEvent.error ∈ evs)) ∧
    c ∈ (imgStep s e).classes := by
  have ha : attachImg img = ⟨img.classes, true, true, 0, 0⟩ := by
    simp [attachImg, h]
  constructor
  · have := imgRun_mem_classes ⟨img.classes, true, true, 0, 0⟩ evs rfl rfl
    rw [ha]
    simpa [hc] using this
  · cases e with
    | load =>
      simp only [imgStep]
      split
      · simp only [mem_addClass]
        exact Or.inl hcs
      · exact hcs
    | error =>
      simp only [imgStep]
      split
      · simp only [mem_addClass]
        exact Or.inl hcs
      · exact hcs

/-- Witness for C3 (amended): an error-then-load sequence on a fresh
incomplete image, and a step that preserves an already present class. -/
theorem imgClasses_terminal_witness :
    ((("loaded") ∈ (imgRun (attachImg ⟨false, []⟩)
        [ImgEvent.error, ImgEvent.load]).classes ↔
        ImgEvent.load ∈ [ImgEvent.error, ImgEvent.load]) ∧
     (("error") ∈ (imgRun (attachImg ⟨false, []⟩)
        [ImgEvent.error, ImgEvent.load]).classes ↔
        ImgEvent.error ∈ [ImgEvent.error, ImgEvent.load])) ∧
    ("error") ∈ (imgStep ⟨[("error")], true, true, 0, 0⟩ ImgEvent.load).classes :=
  imgClasses_terminal ⟨false, []⟩ [ImgEvent.error, ImgEvent.load] rfl rfl
    ⟨[("error")], true, true, 0, 0⟩ ImgEvent.load ("error") (by decide)

/-! ### Hover preloading (`initGifPreloading`, main.js 112-129)

```js
projectLinks.forEach(link => {
  const animatedImage = link.querySelector('.project-image-animated');
  if (animatedImage) {
    link.addEventListener('mouseenter', function() {
      if (!animatedImage.complete) {
        const src = animatedImage.src;
        animatedImage.src = '';
        animatedImage.src = src;
      }
    }, { once: true });
  }
});
```

`once: true` is modelled by the `armed` flag: the listener fires at most
once and is then removed; `reloads` counts executions of the
clear-and-restore of `src`. -/

structure GifImg where
  complete : Bool
  src : List Char
deriving DecidableEq

structure GifState where
  img : GifImg
  armed : Bool
  reloads : Nat
deriving DecidableEq

/-- Per-link setup: a listener is attached only when the link contains a
nested `.project-image-animated` element. -/
def attachGifLink (animated : Option GifImg) : Option GifState :=
  animated.map (fun img => ⟨img, true, 0⟩)

def gifEnter (s : GifState) : GifState :=
  if s.armed then
    let s1 : GifState := { s with armed := false }
    if s1.img.complete then s1
    else
      let saved := s1.img.src
      let img1 : GifImg := { s1.img with src := [] }
      let img2 : GifImg := { img1 with src := saved }
      { s1 with img := img2, reloads := s1.reloads + 1 }
  else s

def gifEnters (s : GifState) : Nat → GifState
  | 0 => s
  | n + 1 => gifEnters (gifEnter s) n

theorem gifEnter_disarmed (s : GifState) (h : s.armed = false) :
    gifEnter s = s := by
  simp [gifEnter, h]

theorem gifEnters_disarmed (s : GifState) (n : Nat) (h : s.armed = false) :
    gifEnters s n = s := by
  induction n with
  | zero => rfl
  | succ m ih => simp [gifEnters, gifEnter_disarmed s h, ih]

/-- C6 counterexample: if the nested animated image is already complete at
the first pointer-enter, two pointer-enter events trigger zero
force-reloads, not exactly one — the handler body is guarded by
`!animatedImage.complete`. -/
theorem gifPreload_counterexample :
    (gifEnters ⟨⟨true, ("a.gif").data⟩, true, 0⟩ 2).reloads = 0 := by
  decide

/-- C6 (amended): for every project link with a nested animated image, the
pointer-enter handler fires at most once (it is disarmed after the first
event); delivering any positive number of pointer-enter events triggers the
force-reload exactly once when the image was not complete at the first
event and never when it was complete, and the image's src is restored to
its original value. -/
theorem gifPreload_once (img : GifImg) (n : Nat) (hn : 1 ≤ n) :
    attachGifLink (some img) = some ⟨img, true, 0⟩ ∧
    (gifEnters ⟨img, true, 0⟩ n).armed = false ∧
    (gifEnters ⟨img, true, 0⟩ n).reloads = (if img.complete then 0 else 1) ∧
    (gifEnters ⟨img, true, 0⟩ n).img = img := by
  obtain ⟨m, rfl⟩ : ∃ m, n = m + 1 := ⟨n - 1, by omega⟩
  obtain ⟨b, src⟩ := img
  refine ⟨rfl, ?_⟩
  have hstep : gifEnters (⟨⟨b, src⟩, true, 0⟩ : GifState) (m + 1) =
      gifEnters (gifEnter ⟨⟨b, src⟩, true, 0⟩) m := rfl
  cases b
  · have he : gifEnter (⟨⟨false, src⟩, true, 0⟩ : GifState) =
        ⟨⟨false, src⟩, false, 1⟩ := rfl
    rw [hstep, he, gifEnters_disarmed _ _ rfl]
    simp
  · have he : gifEnter (⟨⟨true, src⟩, true, 0⟩ : GifState) =
        ⟨⟨true, src⟩, false, 0⟩ := rfl
    rw [hstep, he, gifEnters_disarmed _ _ rfl]
    simp

/-- Witness for C6 (amended): two pointer-enters on a link whose animated
image is not yet complete. -/
theorem gifPreload_once_witness :
    attachGifLink (some ⟨false, ("a.gif").data⟩) = some ⟨⟨false, ("a.gif").data⟩, true, 0⟩ ∧
    (gifEnters ⟨⟨false, ("a.gif").data⟩, true, 0⟩ 2).armed = false ∧
    (gifEnters ⟨⟨false, ("a.gif").data⟩, true, 0⟩ 2).reloads =
      (if (⟨false, ("a.gif").data⟩ : GifImg).complete then 0 else 1) ∧
    (gifEnters ⟨⟨false, ("a.gif").data⟩, true, 0⟩ 2).img = ⟨false, ("a.gif").data⟩ :=
  gifPreload_once ⟨false, ("a.gif").data⟩ 2 (by decide)

/-! ### Reduced motion (`checkReducedMotion`, main.js 135-155)

```js
const prefersReducedMotion = window.matchMedia('(prefers-reduced-motion: reduce)');
if (prefersReducedMotion.matches) {
  document.body.classList.add('reduce-motion');
  document.querySelectorAll('[data-animate]').forEach(element => {
    element.classList.add('animate-in');
  });
}
prefersReducedMotion.addEventListener('change', () => {
  if (prefersReducedMotion.matches) {
    document.body.classList.add('reduce-motion');
  } else {
    document.body.classList.remove('reduce-motion');
  }
});
```

`init` (main.js 218-255) invokes `checkReducedMotion` first, before
`initScrollAnimations` attaches any visibility watcher, and the whole body
of `checkReducedMotion` is synchronous; `motionChange` is the change
listener, invoked with the media query's new `matches` value. -/

structure MotionState where
  prefReduced : Bool
  bodyClasses : List String
  animElems : List (List String)
deriving DecidableEq

def checkReducedMotion (s : MotionState) : MotionState :=
  if s.prefReduced then
    { s with bodyClasses := addClass s.bodyClasses ("reduce-motion"),
             animElems := s.animElems.map (fun c => addClass c ("animate-in")) }
  else s

def motionChange (s : MotionState) (newPref : Bool) : MotionState :=
  let s1 : MotionState := { s with prefReduced := newPref }
  if s1.prefReduced then
    { s1 with bodyClasses := addClass s1.bodyClasses ("reduce-motion") }
  else
    { s1 with bodyClasses := removeClass s1.bodyClasses ("reduce-motion") }

/-- C4: if the reduced-motion preference is active at startup, every
data-animate element carries "animate-in" already when `checkReducedMotion`
returns — synchronously, before `init` reaches `initScrollAnimations` and
any visibility watcher is attached or can fire — and each later
preference-change event leaves the animated elements untouched and only
makes the document-level "reduce-motion" class match the new preference. -/
theorem checkReducedMotion_forces_reveal (s : MotionState)
    (h : s.prefReduced = true) (e : List String)
    (he : e ∈ (checkReducedMotion s).animElems)
    (t : MotionState) (p : Bool) :
    ("animate-in") ∈ e ∧
    (motionChange t p).animElems = t.animElems ∧
    (("reduce-motion") ∈ (motionChange t p).bodyClasses ↔ p = true) := by
  refine ⟨?_, ?_, ?_⟩
  · rw [checkReducedMotion, if_pos h] at he
    simp only [List.mem_map] at he
    obtain ⟨c, _, rfl⟩ := he
    exact mem_addClass_self c ("animate-in")
  · cases p <;> simp [motionChange]
  · cases p
    · simp [motionChange, mem_removeClass]
    · simp [motionChange, mem_addClass]

/-- Witness for C4: one marked element under an active preference, and a
preference-change to inactive. -/
theorem checkReducedMotion_forces_reveal_witness :
    ("animate-in") ∈ [("card"), ("animate-in")] ∧
    (motionChange ⟨true, [("reduce-motion")], [[("card"), ("animate-in")]]⟩ false).animElems =
      (⟨true, [("reduce-motion")], [[("card"), ("animate-in")]]⟩ : MotionState).animElems ∧
    (("reduce-motion") ∈
        (motionChange ⟨true, [("reduce-motion")], [[("card"), ("animate-in")]]⟩ false).bodyClasses ↔
      false = true) :=
  checkReducedMotion_forces_reveal ⟨true, [], [[("card")]]⟩ rfl
    [("card"), ("animate-in")] (by decide)
    ⟨true, [("reduce-motion")], [[("card"), ("animate-in")]]⟩ false

/-! ### Smooth scroll (`initSmoothScroll`, main.js 60-82)

```js
anchor.addEventListener('click', function(e) {
  const href = this.getAttribute('href');
  if (href === '#' || href === '') return;
  e.preventDefault();
  const target = document.querySelector(href);
  if (target) {
    const headerHeight = document.querySelector('.header')?.offsetHeight || 0;
    const targetPosition = target.offsetTop - headerHeight;
    window.scrollTo({ top: targetPosition, behavior: 'smooth' });
  }
});
```
-/

inductive ClickOutcome
  | defaultNav
  | suppressedNoScroll
  | smoothScrollTo (top : Int)
deriving DecidableEq

structure SmoothDoc where
  elems : List (List Char × Int)
  headerHeight : Option Nat
deriving DecidableEq

/-- Models `document.querySelector(href)` for a fragment selector: the
first element whose id, preceded by a hash, equals `href`; the result is
its `offsetTop`. -/
def queryFragment (doc : SmoothDoc) (href : List Char) : Option Int :=
  (doc.elems.find? (fun e => ('#' :: e.1) == href)).map (fun e => e.2)

/-- JavaScript `x || 0` applied to the optional-chained header height. -/
def jsOrZero : Option Nat → Nat
  | none => 0
  | some h => if h = 0 then 0 else h

def anchorClick (doc : SmoothDoc) (href : List Char) : ClickOutcome :=
  if href = ("#").data ∨ href = ("").data then ClickOutcome.defaultNav
  else
    match queryFragment doc href with
    | none => ClickOutcome.suppressedNoScroll
    | some top => ClickOutcome.smoothScrollTo (top - (jsOrZero doc.headerHeight : Int))

/-- C7: clicking an anchor whose fragment matches no element suppresses
default navigation and performs no scroll, while an anchor with a bare-hash
or empty href is left to default browser behavior. -/
theorem anchorClick_unresolved (doc : SmoothDoc) (href : List Char)
    (hne : ¬ (href = ("#").data ∨ href = ("").data))
    (hmiss : queryFragment doc href = none)
    (href2 : List Char) (h2 : href2 = ("#").data ∨ href2 = ("").data) :
    anchorClick doc href = ClickOutcome.suppressedNoScroll ∧
    anchorClick doc href2 = ClickOutcome.defaultNav := by
  constructor
  · rw [anchorClick, if_neg hne, hmiss]
  · rw [anchorClick, if_pos h2]

/-- Witness for C7: a document with one element "section" and a click on
"#missing", plus a click on "#". -/
theorem anchorClick_unresolved_witness :
    anchorClick ⟨[(("section").data, 400)], some 64⟩ (("#missing").data) =
      ClickOutcome.suppressedNoScroll ∧
    anchorClick ⟨[(("section").data, 400)], some 64⟩ (("#").data) =
      ClickOutcome.defaultNav :=
  anchorClick_unresolved ⟨[(("section").data, 400)], some 64⟩ (("#missing").data)
    (by decide) (by decide) (("#").data) (Or.inl rfl)

/-- C8: clicking an anchor whose fragment resolves to an element smooth
scrolls to the element's offsetTop minus the header height when a ".header"
element is present (`jsOrZero (some H) = H`, including a zero-height header)
and minus zero when absent (`jsOrZero none = 0`). -/
theorem anchorClick_resolved (doc : SmoothDoc) (href : List Char)
    (hne : ¬ (href = ("#").data ∨ href = ("").data))
    (top : Int) (hfind : queryFragment doc href = some top) (H : Nat) :
    anchorClick doc href =
      ClickOutcome.smoothScrollTo (top - (jsOrZero doc.headerHeight : Int)) ∧
    jsOrZero (some H) = H ∧
    jsOrZero none = 0 := by
  refine ⟨?_, ?_, rfl⟩
  · rw [anchorClick, if_neg hne, hfind]
  · rw [jsOrZero]
    split
    · omega
    · rfl

/-- Witness for C8: an element at offsetTop 400 under a 64-pixel header. -/
theorem anchorClick_resolved_witness :
    anchorClick ⟨[(("section").data, 400)], some 64⟩ (("#section").data) =
      ClickOutcome.smoothScrollTo
        (400 - (jsOrZero (⟨[(("section").data, 400)], some 64⟩ : SmoothDoc).headerHeight : Int)) ∧
    jsOrZero (some 64) = 64 ∧
    jsOrZero none = 0 :=
  anchorClick_resolved ⟨[(("section").data, 400)], some 64⟩ (("#section").data)
    (by decide) 400 (by decide) 64

/-! ### Stagger delays (`addStaggerDelay`, main.js 49-54)

```js
const cards = document.querySelectorAll('.project-card');
cards.forEach((card, index) => {
  card.style.transitionDelay = `${index * 0.1}s`;
});
```

The numeric value `index * 0.1` is modelled in exact rational arithmetic.
The visibility watcher's callback on a card only adds the "animate-in"
class (`revealCard`) and never touches the delay. -/

structure Card where
  transitionDelay : ℚ
  classes : List String
deriving DecidableEq

def addStagger : Nat → List Card → List Card
  | _, [] => []
  | i, c :: cs => { c with transitionDelay := (i : ℚ) * (1 / 10) } :: addStagger (i + 1) cs

def addStaggerDelay (cards : List Card) : List Card :=
  addStagger 0 cards

def revealCard (c : Card) : Card :=
  { c with classes := addClass c.classes ("animate-in") }

theorem addStagger_length (i : Nat) (cs : List Card) :
    (addStagger i cs).length = cs.length := by
  induction cs generalizing i with
  | nil => rfl
  | cons c cs ih => simp [addStagger, ih]

theorem addStagger_delay_get (k : Nat) (cs : List Card) (j : Nat)
    (hj : j < cs.length) (hj' : j < (addStagger k cs).length) :
    ((addStagger k cs).get ⟨j, hj'⟩).transitionDelay = ((k + j : Nat) : ℚ) * (1 / 10) := by
  induction cs generalizing k j with
  | nil => simp at hj
  | cons c cs ih =>
    cases j with
    | zero => simp [addStagger]
    | succ m =>
      have h1 : m < cs.length := by simpa using hj
      have h2 : m < (addStagger (k + 1) cs).length := by
        rw [addStagger_length]; exact h1
      have hg : ((addStagger k (c :: cs)).get ⟨m + 1, hj'⟩) =
          (addStagger (k + 1) cs).get ⟨m, h2⟩ := rfl
      rw [hg, ih (k + 1) m h1 h2]
      have : k + 1 + m = k + (m + 1) := by omega
      rw [this]

/-- C9: every project card, at every in-range index, receives a transition
delay of exactly index × 0.1 time-units (stated here at two arbitrary
in-range indices i and j, so in particular at every single index including
the last and the only card of a one-card list); delays are strictly
increasing with the index; and the visibility watcher's reveal of a card
leaves its delay unchanged. -/
theorem addStaggerDelay_delays (cards : List Card) (i j : Nat)
    (hi : i < (addStaggerDelay cards).length)
    (hj : j < (addStaggerDelay cards).length) (c : Card) :
    ((addStaggerDelay cards).get ⟨i, hi⟩).transitionDelay = (i : ℚ) * (1 / 10) ∧
    ((addStaggerDelay cards).get ⟨j, hj⟩).transitionDelay = (j : ℚ) * (1 / 10) ∧
    (i < j →
      ((addStaggerDelay cards).get ⟨i, hi⟩).transitionDelay <
        ((addStaggerDelay cards).get ⟨j, hj⟩).transitionDelay) ∧
    (revealCard c).transitionDelay = c.transitionDelay := by
  have hi0 : i < cards.length := by
    rw [addStaggerDelay, addStagger_length] at hi; exact hi
  have hj0 : j < cards.length := by
    rw [addStaggerDelay, addStagger_length] at hj; exact hj
  have gi := addStagger_delay_get 0 cards i hi0 hi
  have gj := addStagger_delay_get 0 cards j hj0 hj
  simp only [Nat.zero_add] at gi gj
  refine ⟨gi, gj, ?_, rfl⟩
  intro hij
  simp only [addStaggerDelay]
  rw [gi, gj]
  have hcast : (i : ℚ) < (j : ℚ) := by exact_mod_cast hij
  have h10 : (0 : ℚ) < 1 / 10 := by norm_num
  exact mul_lt_mul_of_pos_right hcast h10

/-- Witness for C9: two fresh cards, indices 0 and 1, and a reveal of a
card with delay 1/2. -/
theorem addStaggerDelay_delays_witness :
    ((addStaggerDelay [⟨0, []⟩, ⟨0, []⟩]).get
        ⟨0, by rw [addStaggerDelay, addStagger_length]; decide⟩).transitionDelay =
      ((0 : Nat) : ℚ) * (1 / 10) ∧
    ((addStaggerDelay [⟨0, []⟩, ⟨0, []⟩]).get
        ⟨1, by rw [addStaggerDelay, addStagger_length]; decide⟩).transitionDelay =
      ((1 : Nat) : ℚ) * (1 / 10) ∧
    ((addStaggerDelay [⟨0, []⟩, ⟨0, []⟩]).get
        ⟨0, by rw [addStaggerDelay, addStagger_length]; decide⟩).transitionDelay <
      ((addStaggerDelay [⟨0, []⟩, ⟨0, []⟩]).get
        ⟨1, by rw [addStaggerDelay, addStagger_length]; decide⟩).transitionDelay ∧
    (revealCard ⟨1 / 2, []⟩).transitionDelay = (⟨1 / 2, []⟩ : Card).transitionDelay := by
  obtain ⟨h1, h2, h3, h4⟩ :=
    addStaggerDelay_delays [⟨0, []⟩, ⟨0, []⟩] 0 1
      (by rw [addStaggerDelay, addStagger_length]; decide)
      (by rw [addStaggerDelay, addStagger_length]; decide) ⟨1 / 2, []⟩
  exact ⟨h1, h2, h3 (by decide), h4⟩

/-! ### Viewport height timers (`setVhProperty` and `init`, main.js 208-254)

```js
function setVhProperty() {
  const vh = window.innerHeight * 0.01;
  document.documentElement.style.setProperty('--vh', `${vh}px`);
}
let resizeTimer;
window.addEventListener('resize', () => {
  clearTimeout(resizeTimer);
  resizeTimer = setTimeout(() => { setVhProperty(); }, 100);
});
window.addEventListener('orientationchange', () => {
  setTimeout(setVhProperty, 100);
});
```

The event loop is modelled by a timestamped event list processed in time
order; before an event at time t is handled, every pending timer due at or
before t fires (`fireDue`), and after the last event all remaining timers
fire (`drain`). The resize handler cancels and reschedules the single
`resizeTimer`; each orientation handler schedules an independent anonymous
timer. Each firing records (due time, innerHeight read at that moment). -/

inductive VhEvent
  | resize (newHeight : Nat)
  | orient
deriving DecidableEq

structure VhState where
  innerHeight : Nat
  resizeTimer : Option Nat
  orientTimers : List Nat
  resizeRuns : List (Nat × Nat)
  orientRuns : List (Nat × Nat)
deriving DecidableEq

def fireDue (t : Nat) (s : VhState) : VhState :=
  let s1 : VhState :=
    match s.resizeTimer with
    | some d =>
      if d ≤ t then
        { s with resizeTimer := none,
                 resizeRuns := s.resizeRuns ++ [(d, s.innerHeight)] }
      else s
    | none => s
  { s1 with
    orientTimers := s1.orientTimers.filter (fun d => decide (t < d)),
    orientRuns := s1.orientRuns ++
      (s1.orientTimers.filter (fun d => decide (d ≤ t))).map
        (fun d => (d, s1.innerHeight)) }

def vhStep (s : VhState) (ev : Nat × VhEvent) : VhState :=
  let s1 := fireDue ev.1 s
  match ev.2 with
  | VhEvent.resize h =>
    { s1 with innerHeight := h, resizeTimer := some (ev.1 + 100) }
  | VhEvent.orient =>
    { s1 with orientTimers := s1.orientTimers ++ [ev.1 + 100] }

def drain (s : VhState) : VhState :=
  { s with
    resizeTimer := none,
    resizeRuns := s.resizeRuns ++
      (match s.resizeTimer with
       | some d => [(d, s.innerHeight)]
       | none => []),
    orientTimers := [],
    orientRuns := s.orientRuns ++ s.orientTimers.map (fun d => (d, s.innerHeight)) }

def vhRun (s : VhState) (evs : List (Nat × VhEvent)) : VhState :=
  drain (evs.foldl vhStep s)

def vhInit (h : Nat) : VhState :=
  ⟨h, none, [], [], []⟩

/-- A burst of resize events: (time, height) pairs with strictly increasing
times, consecutive events less than 100 time-units apart. -/
def isBurst : List (Nat × Nat) → Bool
  | [] => true
  | [_] => true
  | a :: b :: rest => decide (a.1 < b.1) && decide (b.1 < a.1 + 100) && isBurst (b :: rest)

/-- Strictly increasing event times. -/
def timesChain : List Nat → Bool
  | [] => true
  | [_] => true
  | a :: b :: rest => decide (a < b) && timesChain (b :: rest)

/-- Strictly ascending pending-timer lists. -/
def ascChainB : List Nat → Bool
  | [] => true
  | [_] => true
  | a :: b :: rest => decide (a < b) && ascChainB (b :: rest)

def lastOf (p : Nat × Nat) : List (Nat × Nat) → Nat × Nat
  | [] => p
  | q :: rest => lastOf q rest

theorem vhBurst_fold (bs : List (Nat × Nat)) (t h : Nat) (R O : List (Nat × Nat))
    (hb : isBurst ((t, h) :: bs) = true) :
    (bs.map (fun q => (q.1, VhEvent.resize q.2))).foldl vhStep
        ⟨h, some (t + 100), [], R, O⟩ =
      ⟨(lastOf (t, h) bs).2, some ((lastOf (t, h) bs).1 + 100), [], R, O⟩ := by
  induction bs generalizing t h with
  | nil => rfl
  | cons b rest ih =>
    obtain ⟨⟨hlt, hgap⟩, hb'⟩ :
        (t < b.1 ∧ b.1 < t + 100) ∧ isBurst (b :: rest) = true := by
      simpa [isBurst, Bool.and_eq_true, decide_eq_true_eq] using hb
    have hnot : ¬ (t + 100 ≤ b.1) := by omega
    have hstep : vhStep ⟨h, some (t + 100), [], R, O⟩ (b.1, VhEvent.resize b.2) =
        ⟨b.2, some (b.1 + 100), [], R, O⟩ := by
      simp [vhStep, fireDue, hnot]
    have hlast : lastOf (t, h) (b :: rest) = lastOf (b.1, b.2) rest := rfl
    rw [hlast]
    simp only [List.map_cons, List.foldl_cons]
    rw [hstep]
    exact ih b.1 b.2 (by simpa using hb')

theorem filter_due_split (t : Nat) (l : List Nat)
    (h : List.Pairwise (fun a b => a < b) l) :
    l.filter (fun d => decide (d ≤ t)) ++ l.filter (fun d => decide (t < d)) = l := by
  induction l with
  | nil => rfl
  | cons a rest ih =>
    rw [List.pairwise_cons] at h
    obtain ⟨hall, htl⟩ := h
    by_cases ha : a ≤ t
    · have h1 : decide (a ≤ t) = true := by simpa using ha
      have h2 : decide (t < a) = false := by simpa using Nat.not_lt.mpr ha
      simp only [List.filter_cons, h1, h2, if_true, if_false]
      simp [ih htl]
    · have h1 : decide (a ≤ t) = false := by simpa using ha
      have h2 : decide (t < a) = true := by simpa using Nat.not_le.mp ha
      simp only [List.filter_cons, h1, h2, if_true, if_false]
      have hrest1 : rest.filter (fun d => decide (d ≤ t)) = [] := by
        rw [List.filter_eq_nil_iff]
        intro x hx
        have : t < x := lt_trans (Nat.not_le.mp ha) (hall x hx)
        simpa using Nat.not_le.mpr this
      have hrest2 : rest.filter (fun d => decide (t < d)) = rest := by
        rw [List.filter_eq_self]
        intro x hx
        simpa using lt_trans (Nat.not_le.mp ha) (hall x hx)
      rw [hrest1, hrest2]
      rfl

theorem vhOrient_fold (ts : List Nat) (tprev h0 : Nat) (pend : List Nat)
    (O : List (Nat × Nat))
    (hch : List.Pairwise (fun a b => a < b) pend)
    (hub : ∀ x ∈ pend, x ≤ tprev + 100)
    (hts : timesChain (tprev :: ts) = true) :
    drain ((ts.map (fun t => (t, VhEvent.orient))).foldl vhStep
        ⟨h0, none, pend, [], O⟩) =
      ⟨h0, none, [], [],
        O ++ pend.map (fun d => (d, h0)) ++ ts.map (fun t => (t + 100, h0))⟩ := by
  induction ts generalizing tprev pend O with
  | nil => simp [drain]
  | cons t rest ih =>
    obtain ⟨hlt, hts'⟩ : tprev < t ∧ timesChain (t :: rest) = true := by
      simpa [timesChain, Bool.and_eq_true, decide_eq_true_eq] using hts
    have hstep : vhStep ⟨h0, none, pend, [], O⟩ (t, VhEvent.orient) =
        ⟨h0, none, pend.filter (fun d => decide (t < d)) ++ [t + 100], [],
          O ++ (pend.filter (fun d => decide (d ≤ t))).map (fun d => (d, h0))⟩ := rfl
    have hch' : List.Pairwise (fun a b => a < b)
        (pend.filter (fun d => decide (t < d)) ++ [t + 100]) := by
      rw [List.pairwise_append]
      refine ⟨hch.sublist (List.filter_sublist pend), by simp, ?_⟩
      intro x hx y hy
      have hxp : x ∈ pend := List.mem_of_mem_filter hx
      have hy1 : y = t + 100 := by simpa using hy
      have := hub x hxp
      omega
    have hub' : ∀ x ∈ pend.filter (fun d => decide (t < d)) ++ [t + 100],
        x ≤ t + 100 := by
      intro x hx
      rcases List.mem_append.mp hx with hx | hx
      · have := hub x (List.mem_of_mem_filter hx)
        omega
      · have : x = t + 100 := by simpa using hx
        omega
    simp only [List.map_cons, List.foldl_cons]
    rw [hstep, ih t _ _ hch' hub' hts']
    have hsplit := filter_due_split t pend hch
    have hmap : (pend.filter (fun d => decide (d ≤ t))).map (fun d => (d, h0)) ++
        (pend.filter (fun d => decide (t < d))).map (fun d => (d, h0)) =
        pend.map (fun d => (d, h0)) := by
      rw [← List.map_append, hsplit]
    simp only [List.map_append, List.map_cons, List.map_nil]
    rw [List.append_assoc O, List.append_assoc O]
    congr 1
    rw [← hmap]
    simp

/-- C5: a burst of resize events with consecutive gaps below 100 time-units
produces exactly one debounced viewport-height recomputation, firing 100
time-units after the final event of the burst and reading that final
event's height, while a sequence of orientation-change events produces one
independent recomputation per event, each 100 time-units after its event
and none cancelled by a later one. -/
theorem vh_debounce_and_orient (h0 : Nat) (p : Nat × Nat) (bs : List (Nat × Nat))
    (hb : isBurst (p :: bs) = true)
    (g0 t0 : Nat) (ts : List Nat) (hts : timesChain (t0 :: ts) = true) :
    ((vhRun (vhInit h0) ((p :: bs).map (fun q => (q.1, VhEvent.resize q.2)))).resizeRuns =
        [((lastOf p bs).1 + 100, (lastOf p bs).2)] ∧
      (vhRun (vhInit h0) ((p :: bs).map (fun q => (q.1, VhEvent.resize q.2)))).orientRuns =
        []) ∧
    ((vhRun (vhInit g0) ((t0 :: ts).map (fun t => (t, VhEvent.orient)))).orientRuns =
        (t0 :: ts).map (fun t => (t + 100, g0)) ∧
      (vhRun (vhInit g0) ((t0 :: ts).map (fun t => (t, VhEvent.orient)))).resizeRuns =
        []) := by
  constructor
  · obtain ⟨t, h⟩ := p
    have hstep0 : vhStep (vhInit h0) (t, VhEvent.resize h) =
        ⟨h, some (t + 100), [], [], []⟩ := rfl
    have hfold := vhBurst_fold bs t h [] [] hb
    rw [vhRun]
    simp only [List.map_cons, List.foldl_cons]
    rw [hstep0, hfold]
    exact ⟨rfl, rfl⟩
  · have hstep0 : vhStep (vhInit g0) (t0, VhEvent.orient) =
        ⟨g0, none, [t0 + 100], [], []⟩ := rfl
    have hfold := vhOrient_fold ts t0 g0 [t0 + 100] []
      (by simp) (by simp) hts
    rw [vhRun]
    simp only [List.map_cons, List.foldl_cons]
    rw [hstep0, hfold]
    simp

/-- Witness for C5: a two-event resize burst at times 0 and 50 (final
height 600) and orientation changes at times 0 and 30. -/
theorem vh_debounce_and_orient_witness :
    ((vhRun (vhInit 800) ([((0 : Nat), (640 : Nat)), (50, 600)].map
          (fun q => (q.1, VhEvent.resize q.2)))).resizeRuns =
        [((lastOf (0, 640) [(50, 600)]).1 + 100, (lastOf (0, 640) [(50, 600)]).2)] ∧
      (vhRun (vhInit 800) ([((0 : Nat), (640 : Nat)), (50, 600)].map
          (fun q => (q.1, VhEvent.resize q.2)))).orientRuns = []) ∧
    ((vhRun (vhInit 480) (([0, 30] : List Nat).map
          (fun t => (t, VhEvent.orient)))).orientRuns =
        ([0, 30] : List Nat).map (fun t => (t + 100, 480)) ∧
      (vhRun (vhInit 480) (([0, 30] : List Nat).map
          (fun t => (t, VhEvent.orient)))).resizeRuns = []) :=
  vh_debounce_and_orient 800 (0, 640) [(50, 600)] (by decide) 480 0 [30] (by decide)

end DesignSite
